import Mathlib

/-!
Verification of the swagger-mcp normalization layer against its specification.

The parser (`swagger_mcp/parser.py`) takes a generic JSON/YAML tree and
normalizes it into a unified document model (`swagger_mcp/models.py`).
We embed the tree as an inductive `Json` value (Python dicts become ordered
association lists, as Python dicts preserve insertion order), and each parser
function as an executable Lean function.  Dynamic-typing failures (Python
`AttributeError`/`KeyError`/`IndexError`/pydantic validation errors) are
modelled with the `Except String` monad.
-/

namespace SwaggerMcp

/-- A generic decoded JSON/YAML tree.  Objects are ordered association lists,
mirroring Python's insertion-ordered `dict`. -/
inductive Json where
  | null : Json
  | bool : Bool → Json
  | num : Int → Json
  | str : String → Json
  | arr : List Json → Json
  | obj : List (String × Json) → Json
deriving Repr, Inhabited

/-- `d.get(key)`: first value bound to `key`, if any. -/
def Json.lookup : List (String × Json) → String → Option Json
  | [], _ => none
  | (k, v) :: rest, key => if k = key then some v else Json.lookup rest key

/-- `d.get(key, default)`. -/
def getD (fields : List (String × Json)) (key : String) (dflt : Json) : Json :=
  (Json.lookup fields key).getD dflt

/-- `key in d`. -/
def hasKey (fields : List (String × Json)) (key : String) : Bool :=
  (Json.lookup fields key).isSome

/-- Python truthiness of a decoded value (`bool(v)`). -/
def Json.truthy : Json → Bool
  | .null => false
  | .bool b => b
  | .num n => n ≠ 0
  | .str s => s ≠ ""
  | .arr xs => !xs.isEmpty
  | .obj fs => !fs.isEmpty

/-- Use a value as a dict; anything else raises (`AttributeError` on `.get`). -/
def Json.asObj : Json → Except String (List (String × Json))
  | .obj fs => .ok fs
  | _ => .error "expected a mapping"

/-- Use a value as a list; anything else raises (`TypeError` on `+`/indexing). -/
def Json.asArr : Json → Except String (List Json)
  | .arr xs => .ok xs
  | _ => .error "expected a sequence"

/-- Use a value as a string; anything else fails pydantic `str` validation. -/
def Json.asStr : Json → Except String String
  | .str s => .ok s
  | _ => .error "expected a string"

/-- Use a value as a boolean; anything else fails pydantic `bool` validation. -/
def Json.asBool : Json → Except String Bool
  | .bool b => .ok b
  | _ => .error "expected a boolean"

/-- Validate an optional field against pydantic `Optional[str]`:
an absent key or an explicit `null` give `none`. -/
def optStr : Option Json → Except String (Option String)
  | none => .ok none
  | some .null => .ok none
  | some v => do pure (some (← v.asStr))

/-- Python `name in lst` where `name` is a `str` and `lst` a decoded list:
`==` holds only against equal string elements. -/
def jsonMemStr : List Json → String → Bool
  | [], _ => false
  | Json.str t :: rest, s => s = t || jsonMemStr rest s
  | _ :: rest, s => jsonMemStr rest s

/-- Python `s.lower()` (as a structurally computable map over the
character list). -/
def strLower (s : String) : String := ⟨s.data.map Char.toLower⟩

/-- Python `s.upper()`. -/
def strUpper (s : String) : String := ⟨s.data.map Char.toUpper⟩

/-! ## The document model (`swagger_mcp/models.py`)

Fields the spec treats as opaque nested trees are kept as `Option Json`. -/

/-- `models.Parameter`. -/
structure Parameter where
  name : String
  location : String
  type : String
  required : Bool
  description : Option Json
  default : Option Json
  «example» : Option Json
deriving Repr

/-- `models.Response`. -/
structure Response where
  status_code : String
  description : String
  content_type : Option String
  schema : Option Json
deriving Repr

/-- `models.ApiEndpoint`. -/
structure ApiEndpoint where
  path : String
  method : String
  operation_id : Option String
  summary : Option String
  description : Option String
  tags : List String
  parameters : List Parameter
  responses : List Response
  security : List Json
  deprecated : Bool
deriving Repr

/-- `models.SchemaProperty`. -/
structure SchemaProperty where
  name : String
  type : String
  description : Option Json
  required : Bool
  format : Option Json
  «example» : Option Json
  enum : Option Json
  items : Option Json
  properties : Option Json
deriving Repr

/-- `models.Schema`. -/
structure Schema where
  name : String
  type : String
  description : Option Json
  properties : List SchemaProperty
  required : List String
  «example» : Option Json
deriving Repr

/-- `models.SwaggerInfo`. -/
structure SwaggerInfo where
  title : String
  version : String
  description : Option String
  contact : Option Json
  license : Option Json
deriving Repr

/-- `models.SwaggerDocument`. -/
structure SwaggerDocument where
  info : SwaggerInfo
  apis : List ApiEndpoint
  schemas : List Schema
  servers : List Json
  security_definitions : List (String × Json)
deriving Repr

/-! ## The normalizer (`SwaggerParser` in `swagger_mcp/parser.py`) -/

/-- Body of the loop in `SwaggerParser._parse_parameters`: normalize one raw
parameter object. -/
def parse_parameter (param : List (String × Json)) : Except String Parameter := do
  let t0 := getD param "type" (Json.str "string")
  let param_type ←
    match Json.lookup param "schema" with
    | some schemaJ => do
        let schema ← schemaJ.asObj
        (getD schema "type" (Json.str "string")).asStr
    | none => t0.asStr
  let nameJ ←
    match Json.lookup param "name" with
    | some v => pure v
    | none => Except.error "KeyError: name"
  let name ← nameJ.asStr
  let location ← (getD param "in" (Json.str "query")).asStr
  let required ← (getD param "required" (Json.bool false)).asBool
  pure { name := name, location := location, type := param_type,
         required := required,
         description := Json.lookup param "description",
         default := Json.lookup param "default",
         «example» := Json.lookup param "example" }

/-- `SwaggerParser._parse_parameters`: normalize a raw parameter list. -/
def parse_parameters : List Json → Except String (List Parameter)
  | [] => .ok []
  | p :: rest => do
    let obj ← p.asObj
    let param ← parse_parameter obj
    let others ← parse_parameters rest
    pure (param :: others)

/-- Body of the loop in `SwaggerParser._parse_responses`: normalize one raw
response object under its status-code key.  When a `content` map is present,
only its first entry is consulted (`break` after the first iteration). -/
def parse_response (status_code : String) (rdata : List (String × Json)) :
    Except String Response := do
  let (content_type, schema) ←
    match Json.lookup rdata "content" with
    | some contentJ => do
        let content ← contentJ.asObj
        match content with
        | [] => pure ((none : Option String), (none : Option Json))
        | (ct, c) :: _ => do
            let cobj ← c.asObj
            pure (some ct, Json.lookup cobj "schema")
    | none =>
        match Json.lookup rdata "schema" with
        | some s => pure (some "application/json", some s)
        | none => pure ((none : Option String), (none : Option Json))
  let description ← (getD rdata "description" (Json.str "")).asStr
  pure { status_code := status_code, description := description,
         content_type := content_type, schema := schema }

/-- `SwaggerParser._parse_responses`: normalize the `responses` map. -/
def parse_responses : List (String × Json) → Except String (List Response)
  | [] => .ok []
  | (status_code, rdataJ) :: rest => do
    let rdata ← rdataJ.asObj
    let response ← parse_response status_code rdata
    let others ← parse_responses rest
    pure (response :: others)

/-- The seven HTTP methods recognized by `SwaggerParser._parse_paths`. -/
def httpMethods : List String :=
  ["get", "post", "put", "delete", "patch", "head", "options"]

/-- Body of the inner loop in `SwaggerParser._parse_paths`: build the
`ApiEndpoint` for one recognized `(path, method)` operation. -/
def parse_operation (path method : String) (pathItem operation : List (String × Json)) :
    Except String ApiEndpoint := do
  let opParams ← (getD operation "parameters" (Json.arr [])).asArr
  let itemParams ← (getD pathItem "parameters" (Json.arr [])).asArr
  let parameters ← parse_parameters (opParams ++ itemParams)
  let responsesObj ← (getD operation "responses" (Json.obj [])).asObj
  let responses ← parse_responses responsesObj
  let operation_id ← optStr (Json.lookup operation "operationId")
  let summary ← optStr (Json.lookup operation "summary")
  let description ← optStr (Json.lookup operation "description")
  let tagsJ ← (getD operation "tags" (Json.arr [])).asArr
  let tags ← tagsJ.mapM Json.asStr
  let securityJ ← (getD operation "security" (Json.arr [])).asArr
  let deprecated ← (getD operation "deprecated" (Json.bool false)).asBool
  pure { path := path, method := strUpper method, operation_id := operation_id,
         summary := summary, description := description, tags := tags,
         parameters := parameters, responses := responses,
         security := securityJ, deprecated := deprecated }

/-- Inner loop of `SwaggerParser._parse_paths`: iterate the entries of one
path item, skipping every key that is not a recognized HTTP method. -/
def parse_path_ops (path : String) (pathItem : List (String × Json)) :
    List (String × Json) → Except String (List ApiEndpoint)
  | [] => .ok []
  | (method, opJ) :: rest =>
    if httpMethods.contains (strLower method) then do
      let op ← opJ.asObj
      let e ← parse_operation path method pathItem op
      let others ← parse_path_ops path pathItem rest
      pure (e :: others)
    else
      parse_path_ops path pathItem rest

/-- `SwaggerParser._parse_paths`: one flat endpoint list over all paths. -/
def parse_paths : List (String × Json) → Except String (List ApiEndpoint)
  | [] => .ok []
  | (path, itemJ) :: rest => do
    let item ← itemJ.asObj
    let es ← parse_path_ops path item item
    let others ← parse_paths rest
    pure (es ++ others)

/-- `SwaggerParser._parse_single_schema`: normalize one named schema.
Each property's `required` flag is Python's `prop_name in schema_def.get('required', [])`. -/
def parse_single_schema (name : String) (schema_def : List (String × Json)) :
    Except String Schema := do
  let requiredJ ← (getD schema_def "required" (Json.arr [])).asArr
  let propsObj ← (getD schema_def "properties" (Json.obj [])).asObj
  let properties ← parse_schema_props requiredJ propsObj
  let stype ← (getD schema_def "type" (Json.str "object")).asStr
  let requiredStrs ← requiredJ.mapM Json.asStr
  pure { name := name, type := stype,
         description := Json.lookup schema_def "description",
         properties := properties, required := requiredStrs,
         «example» := Json.lookup schema_def "example" }
where
  /-- Loop over the `properties` map of `_parse_single_schema`. -/
  parse_schema_props (requiredJ : List Json) :
      List (String × Json) → Except String (List SchemaProperty)
    | [] => .ok []
    | (prop_name, prop_defJ) :: rest => do
      let prop_def ← prop_defJ.asObj
      let ptype ← (getD prop_def "type" (Json.str "string")).asStr
      let others ← parse_schema_props requiredJ rest
      pure ({ name := prop_name, type := ptype,
              description := Json.lookup prop_def "description",
              required := jsonMemStr requiredJ prop_name,
              format := Json.lookup prop_def "format",
              «example» := Json.lookup prop_def "example",
              enum := Json.lookup prop_def "enum",
              items := Json.lookup prop_def "items",
              properties := Json.lookup prop_def "properties" } :: others)

/-- Loop of `SwaggerParser._parse_schemas` over the named schema map. -/
def parse_schema_list : List (String × Json) → Except String (List Schema)
  | [] => .ok []
  | (name, defJ) :: rest => do
    let schema ← parse_single_schema name (← defJ.asObj)
    let others ← parse_schema_list rest
    pure (schema :: others)

/-- `SwaggerParser._parse_schemas`: `components.schemas`, falling back to
`definitions` when the former is absent or falsy. -/
def parse_schemas (spec : List (String × Json)) : Except String (List Schema) := do
  let components ← (getD spec "components" (Json.obj [])).asObj
  let schemas0 := getD components "schemas" (Json.obj [])
  let schemasJ := if schemas0.truthy then schemas0 else getD spec "definitions" (Json.obj [])
  parse_schema_list (← schemasJ.asObj)

/-- The `info` block of `SwaggerParser._parse_spec`. -/
def parse_info (spec : List (String × Json)) : Except String SwaggerInfo := do
  let info_data ← (getD spec "info" (Json.obj [])).asObj
  let title ← (getD info_data "title" (Json.str "Unknown API")).asStr
  let version ← (getD info_data "version" (Json.str "1.0.0")).asStr
  let description ← optStr (Json.lookup info_data "description")
  pure { title := title, version := version, description := description,
         contact := Json.lookup info_data "contact",
         license := Json.lookup info_data "license" }

/-- The servers block of `SwaggerParser._parse_spec`: a present truthy
`servers` is used as is; otherwise a present `host` synthesizes one
Swagger-2.0 server entry; indexing `schemes[0]` on an empty list raises. -/
def parse_servers (spec : List (String × Json)) : Except String (List Json) := do
  let servers := getD spec "servers" (Json.arr [])
  if !servers.truthy && hasKey spec "host" then do
    let schemes ← (getD spec "schemes" (Json.arr [Json.str "http"])).asArr
    match schemes with
    | [] => Except.error "IndexError: schemes[0]"
    | s0 :: _ => do
      let scheme ← s0.asStr
      let base_path ← (getD spec "basePath" (Json.str "")).asStr
      let host ← ((Json.lookup spec "host").getD Json.null).asStr
      pure [Json.obj [("url", Json.str (scheme ++ "://" ++ host ++ base_path))]]
  else
    servers.asArr

/-- The security-definitions block of `SwaggerParser._parse_spec`. -/
def parse_security_definitions (spec : List (String × Json)) :
    Except String (List (String × Json)) := do
  let sdJ := getD spec "securityDefinitions" (Json.obj [])
  let sdJ2 ←
    if sdJ.truthy then pure sdJ
    else do
      let components ← (getD spec "components" (Json.obj [])).asObj
      pure (getD components "securitySchemes" (Json.obj []))
  sdJ2.asObj

/-- `SwaggerParser._parse_spec`: the whole normalization pass. -/
def parse_spec (spec : List (String × Json)) : Except String SwaggerDocument := do
  let info ← parse_info spec
  let servers ← parse_servers spec
  let apis ← parse_paths (← (getD spec "paths" (Json.obj [])).asObj)
  let schemas ← parse_schemas spec
  let security_definitions ← parse_security_definitions spec
  pure { info := info, apis := apis, schemas := schemas, servers := servers,
         security_definitions := security_definitions }

/-! ## Query service (`SwaggerParser.get_apis_by_tag` / `search_apis`)

The parser holds `current_document : Optional[SwaggerDocument]`; both queries
return `[]` when it is `None`. -/

/-- `SwaggerParser.get_apis_by_tag`: exact membership `tag in api.tags`. -/
def get_apis_by_tag (current : Option SwaggerDocument) (tag : String) :
    List ApiEndpoint :=
  match current with
  | none => []
  | some doc => doc.apis.filter (fun api => api.tags.contains tag)

/-- Python `query in s` substring test (on code points). -/
def strContains (s pat : String) : Bool :=
  (List.range (s.data.length + 1)).any (fun i => pat.data.isPrefixOf (s.data.drop i))

/-- Match condition of the loop in `SwaggerParser.search_apis`; `api.summary
and ...` short-circuits on a `None` or empty summary (Python truthiness),
likewise for the description. -/
def api_matches (query_lower : String) (api : ApiEndpoint) : Bool :=
  strContains (strLower api.path) query_lower ||
  strContains (strLower api.method) query_lower ||
  (match api.summary with
   | some s => s ≠ "" && strContains (strLower s) query_lower
   | none => false) ||
  (match api.description with
   | some s => s ≠ "" && strContains (strLower s) query_lower
   | none => false) ||
  api.tags.any (fun t => strContains (strLower t) query_lower)

/-- `SwaggerParser.search_apis`. -/
def search_apis (current : Option SwaggerDocument) (query : String) :
    List ApiEndpoint :=
  match current with
  | none => []
  | some doc => doc.apis.filter (api_matches (strLower query))

/-- Claim-side predicate for C5, following the spec text: a case-insensitive
substring match against path, method, summary, description and any tag; the
endpoint matches if ANY of those fields matches. -/
def claim_matches (query : String) (api : ApiEndpoint) : Bool :=
  strContains (strLower api.path) (strLower query) ||
  strContains (strLower api.method) (strLower query) ||
  (match api.summary with
   | some s => strContains (strLower s) (strLower query)
   | none => false) ||
  (match api.description with
   | some s => strContains (strLower s) (strLower query)
   | none => false) ||
  api.tags.any (fun t => strContains (strLower t) (strLower query))

/-! ## Load operations (`SwaggerParser.load_from_url`, `server.load_swagger`)

Retrieval and JSON/YAML decoding are external collaborators; their outcome is
an input here (`Except String Json`).  `load_from_url` assigns
`self.current_document` only after `_parse_spec` returns, so any failure
leaves the held document unchanged; `server.load_swagger` converts every
exception into a structured failure result. -/

/-- `SwaggerParser.load_from_url`, as a state transition on the held
document, given the retrieval/decode outcome. -/
def load_from_url (current : Option SwaggerDocument) (fetched : Except String Json) :
    Option SwaggerDocument × Except String SwaggerDocument :=
  match fetched with
  | .error e => (current, .error ("Failed to load Swagger document from URL: " ++ e))
  | .ok j =>
    match j.asObj with
    | .error e => (current, .error e)
    | .ok spec =>
      match parse_spec spec with
      | .ok doc => (some doc, .ok doc)
      | .error e => (current, .error e)

/-- The structured result dict returned by the `load_swagger` tool. -/
structure LoadReply where
  success : Bool
  message : Option String
  error : Option String
deriving Repr

/-- `server.load_swagger` (URL branch): wraps `load_from_url`, catching every
exception into a structured failure reply. -/
def load_swagger (current : Option SwaggerDocument) (fetched : Except String Json) :
    Option SwaggerDocument × LoadReply :=
  match load_from_url current fetched with
  | (st, .ok doc) =>
    (st, { success := true,
           message := some ("Successfully loaded Swagger document: " ++ doc.info.title),
           error := none })
  | (st, .error e) =>
    (st, { success := false, message := none,
           error := some ("Failed to load Swagger document: " ++ e) })

/-- Claim-side (C4): the (path, uppercased method) identity pairs promised by
the spec: one per path-item entry whose key case-insensitively matches a
recognized HTTP method, in order, every other key skipped. -/
def claimPathMethodPairs : List (String × List (String × Json)) →
    List (String × String)
  | [] => []
  | pitem :: rest =>
    (pitem.2.filter (fun kv => httpMethods.contains (strLower kv.1))).map
      (fun kv => (pitem.1, strUpper kv.1)) ++ claimPathMethodPairs rest

/-- Claim-side (C4): the normalized parameters of one operation per the spec:
the operation-level parameters list first, the path-item-level list appended
after it. -/
def claimOpParams (item : List (String × Json)) (opJ : Json) :
    Except String (List Parameter) := do
  let op ← opJ.asObj
  let opP ← (getD op "parameters" (Json.arr [])).asArr
  let itemP ← (getD item "parameters" (Json.arr [])).asArr
  parse_parameters (opP ++ itemP)

/-- Claim-side (C4): per-operation parameter lists over one path item. -/
def claimParamsOps (item : List (String × Json)) :
    List (String × Json) → Except String (List (List Parameter))
  | [] => .ok []
  | kv :: rest =>
    if httpMethods.contains (strLower kv.1) then do
      let ps ← claimOpParams item kv.2
      let others ← claimParamsOps item rest
      pure (ps :: others)
    else claimParamsOps item rest

/-- Claim-side (C4): per-operation parameter lists over all paths. -/
def claimParamsPaths : List (String × List (String × Json)) →
    Except String (List (List Parameter))
  | [] => .ok []
  | pitem :: rest => do
    let ps ← claimParamsOps pitem.2 pitem.2
    let others ← claimParamsPaths rest
    pure (ps ++ others)

/-! ## Inversion helpers for the `Except String` monad -/

theorem bind_ok_iff {α β : Type} {x : Except String α} {f : α → Except String β} {b : β} :
    x >>= f = Except.ok b ↔ ∃ a, x = Except.ok a ∧ f a = Except.ok b := by
  cases x <;> simp [Bind.bind, Except.bind]

theorem ok_bind {α β : Type} {a : α} {f : α → Except String β} :
    (Except.ok a : Except String α) >>= f = f a := rfl

theorem pure_ok_iff {α : Type} {a b : α} :
    (pure a : Except String α) = Except.ok b ↔ a = b := by
  constructor
  · intro h
    exact Except.ok.inj h
  · intro h
    rw [h]
    rfl

theorem asObj_ok_iff {j : Json} {fs : List (String × Json)} :
    j.asObj = Except.ok fs ↔ j = Json.obj fs := by
  cases j <;> simp [Json.asObj]

theorem asArr_ok_iff {j : Json} {xs : List Json} :
    j.asArr = Except.ok xs ↔ j = Json.arr xs := by
  cases j <;> simp [Json.asArr]

theorem asStr_ok_iff {j : Json} {s : String} :
    j.asStr = Except.ok s ↔ j = Json.str s := by
  cases j <;> simp [Json.asStr]

theorem asBool_ok_iff {j : Json} {b : Bool} :
    j.asBool = Except.ok b ↔ j = Json.bool b := by
  cases j <;> simp [Json.asBool]

end SwaggerMcp

namespace SwaggerMcp

theorem jsonMemStr_iff (req : List Json) (s : String) :
    jsonMemStr req s = true ↔ Json.str s ∈ req := by
  induction req with
  | nil => simp [jsonMemStr]
  | cons hd tl ih =>
    cases hd <;> simp [jsonMemStr, ih, List.mem_cons]

theorem parse_schema_props_inv (requiredJ : List Json) :
    ∀ (fs : List (String × Json)) (props : List SchemaProperty),
      parse_single_schema.parse_schema_props requiredJ fs = Except.ok props →
      props.map (fun prop => prop.name) = fs.map Prod.fst ∧
      ∀ prop ∈ props, prop.required = jsonMemStr requiredJ prop.name := by
  intro fs
  induction fs with
  | nil =>
    intro props h
    unfold parse_single_schema.parse_schema_props at h
    obtain rfl := Except.ok.inj h
    exact ⟨rfl, by simp⟩
  | cons hd tl ih =>
    intro props h
    obtain ⟨pn, pdJ⟩ := hd
    unfold parse_single_schema.parse_schema_props at h
    simp only [bind_ok_iff, pure_ok_iff, asObj_ok_iff, asStr_ok_iff] at h
    obtain ⟨pd, hpd, pt, hpt, others, hothers, hcons⟩ := h
    obtain ⟨h1, h2⟩ := ih others hothers
    subst hcons
    constructor
    · simp [h1]
    · intro prop hmem
      rcases List.mem_cons.mp hmem with rfl | hmem2
      · rfl
      · exact h2 prop hmem2

end SwaggerMcp

namespace SwaggerMcp

/-- Claim C8: for every named schema and every property in its properties
map, the normalized property's required flag is true iff the property's name
appears in the owning schema's required list (absent list treated as
empty, via the default of `getD`). -/
theorem C8_schema_property_required (name : String)
    (schema_def : List (String × Json)) (sch : Schema)
    (hok : parse_single_schema name schema_def = Except.ok sch)
    (req : List Json)
    (hreq : getD schema_def "required" (Json.arr []) = Json.arr req)
    (propsFs : List (String × Json))
    (hprops : getD schema_def "properties" (Json.obj []) = Json.obj propsFs) :
    sch.properties.map (fun prop => prop.name) = propsFs.map Prod.fst ∧
    ∀ prop ∈ sch.properties, (prop.required = true ↔ Json.str prop.name ∈ req) := by
  unfold parse_single_schema at hok
  rw [hreq, hprops] at hok
  simp only [bind_ok_iff, pure_ok_iff, asArr_ok_iff, asObj_ok_iff, asStr_ok_iff] at hok
  obtain ⟨r2, hr2, p2, hp2, props, hpr, st, hst, rs, hrs, hsch⟩ := hok
  obtain rfl := Json.arr.inj hr2
  obtain rfl := Json.obj.inj hp2
  obtain ⟨h1, h2⟩ := parse_schema_props_inv req propsFs props hpr
  subst hsch
  refine ⟨h1, ?_⟩
  intro prop hmem
  rw [h2 prop hmem]
  exact jsonMemStr_iff req prop.name

end SwaggerMcp

namespace SwaggerMcp

theorem parse_spec_inv (spec : List (String × Json)) (doc : SwaggerDocument)
    (hok : parse_spec spec = Except.ok doc) :
    parse_info spec = Except.ok doc.info ∧
    parse_servers spec = Except.ok doc.servers ∧
    (∃ pathsObj, getD spec "paths" (Json.obj []) = Json.obj pathsObj ∧
       parse_paths pathsObj = Except.ok doc.apis) := by
  unfold parse_spec at hok
  simp only [bind_ok_iff, pure_ok_iff, asObj_ok_iff] at hok
  obtain ⟨i, hi, sv, hsv, po, hpo, apis, hapis, schemas, hschemas, sd, hsd, hdoc⟩ := hok
  subst hdoc
  exact ⟨hi, hsv, po, hpo, hapis⟩

end SwaggerMcp

namespace SwaggerMcp

theorem parse_info_inv (spec : List (String × Json)) (info : SwaggerInfo)
    (hok : parse_info spec = Except.ok info) :
    ∃ fs, getD spec "info" (Json.obj []) = Json.obj fs ∧
      getD fs "title" (Json.str "Unknown API") = Json.str info.title ∧
      getD fs "version" (Json.str "1.0.0") = Json.str info.version := by
  unfold parse_info at hok
  simp only [bind_ok_iff, pure_ok_iff, asObj_ok_iff, asStr_ok_iff] at hok
  obtain ⟨fs, hfs, t, ht, v, hv, d, hd, hinfo⟩ := hok
  subst hinfo
  exact ⟨fs, hfs, ht, hv⟩

/-- Claim C9 (amended): the title equals the provided info.title, even when
that is the empty string, and defaults to Unknown API when absent; the
version analogously defaults to 1.0.0. -/
theorem C9_info_title_version (spec : List (String × Json)) (doc : SwaggerDocument)
    (hok : parse_spec spec = Except.ok doc)
    (fs : List (String × Json))
    (hinfo : getD spec "info" (Json.obj []) = Json.obj fs) :
    (Json.lookup fs "title" = none → doc.info.title = "Unknown API") ∧
    (∀ t, Json.lookup fs "title" = some (Json.str t) → doc.info.title = t) ∧
    (Json.lookup fs "version" = none → doc.info.version = "1.0.0") ∧
    (∀ v, Json.lookup fs "version" = some (Json.str v) → doc.info.version = v) := by
  obtain ⟨hi, _, _⟩ := parse_spec_inv spec doc hok
  obtain ⟨fs2, hfs2, ht, hv⟩ := parse_info_inv spec doc.info hi
  rw [hinfo] at hfs2
  obtain rfl := Json.obj.inj hfs2
  refine ⟨?_, ?_, ?_, ?_⟩
  · intro h
    rw [getD, h] at ht
    exact (Json.str.inj ht).symm
  · intro t h
    rw [getD, h, Option.getD] at ht
    exact (Json.str.inj ht).symm
  · intro h
    rw [getD, h] at hv
    exact (Json.str.inj hv).symm
  · intro v h
    rw [getD, h, Option.getD] at hv
    exact (Json.str.inj hv).symm

/-- Claim C9, counterexample: a source that provides an empty title yields an
empty (not non-empty) normalized title. -/
theorem C9_empty_title_counterexample :
    (parse_spec [("info", Json.obj [("title", Json.str "")])]).map
        (fun doc => doc.info.title) = Except.ok "" ∧
    ¬ (∀ doc, parse_spec [("info", Json.obj [("title", Json.str "")])] =
          Except.ok doc → doc.info.title ≠ "") := by
  constructor
  · rfl
  · intro h
    exact h _ rfl rfl

theorem C9_info_witness :
    parse_spec [("info", Json.obj [("version", Json.str "2.3")])] =
      Except.ok { info := { title := "Unknown API", version := "2.3",
                            description := none, contact := none, license := none },
                  apis := [], schemas := [], servers := [],
                  security_definitions := [] } ∧
    ({ info := { title := "Unknown API", version := "2.3", description := none,
                 contact := none, license := none },
       apis := [], schemas := [], servers := [],
       security_definitions := [] } : SwaggerDocument).info.title = "Unknown API" :=
  ⟨rfl,
   (C9_info_title_version [("info", Json.obj [("version", Json.str "2.3")])]
      { info := { title := "Unknown API", version := "2.3", description := none,
                  contact := none, license := none },
        apis := [], schemas := [], servers := [], security_definitions := [] }
      rfl [("version", Json.str "2.3")] rfl).1 rfl⟩

end SwaggerMcp

namespace SwaggerMcp

/-- Claim C1: a present non-empty servers sequence is used verbatim; with
servers absent or empty and a host present, exactly one server entry
scheme://host+basePath is synthesized, scheme being the first element of
schemes (http when schemes is absent) and basePath defaulting to the empty
string; with neither servers nor host the result is the empty sequence. -/
theorem C1_servers_normalization (spec : List (String × Json)) (doc : SwaggerDocument)
    (hok : parse_spec spec = Except.ok doc) :
    (∀ v vs, Json.lookup spec "servers" = some (Json.arr (v :: vs)) →
        doc.servers = v :: vs) ∧
    (∀ h s bp,
        (Json.lookup spec "servers" = none ∨
         Json.lookup spec "servers" = some (Json.arr [])) →
        Json.lookup spec "host" = some (Json.str h) →
        ((Json.lookup spec "schemes" = none ∧ s = "http") ∨
         (∃ ss, Json.lookup spec "schemes" = some (Json.arr (Json.str s :: ss)))) →
        ((Json.lookup spec "basePath" = none ∧ bp = "") ∨
         Json.lookup spec "basePath" = some (Json.str bp)) →
        doc.servers = [Json.obj [("url", Json.str (s ++ "://" ++ h ++ bp))]]) ∧
    (Json.lookup spec "servers" = none → Json.lookup spec "host" = none →
        doc.servers = []) := by
  obtain ⟨_, hsv, _⟩ := parse_spec_inv spec doc hok
  refine ⟨?_, ?_, ?_⟩
  · intro v vs h
    unfold parse_servers at hsv
    rw [getD, h, Option.getD] at hsv
    simp only [Json.truthy, List.isEmpty, Bool.not_not, Bool.false_and,
      Bool.false_eq_true, if_false, asArr_ok_iff] at hsv
    exact (Json.arr.inj hsv).symm
  · intro h s bp hsrv hhost hscheme hbp
    unfold parse_servers at hsv
    have hget : getD spec "servers" (Json.arr []) = Json.arr [] := by
      rcases hsrv with h1 | h1 <;> rw [getD, h1] <;> rfl
    rw [hget] at hsv
    rw [hasKey, hhost] at hsv
    simp only [Json.truthy, List.isEmpty, Bool.not_false, Option.isSome,
      Bool.and_true, Bool.true_and, if_true] at hsv
    rcases hscheme with ⟨h1, rfl⟩ | ⟨ss, h1⟩ <;> rw [getD, h1] at hsv <;>
      rcases hbp with ⟨h2, rfl⟩ | h2 <;> rw [getD, h2] at hsv <;>
        simp only [Option.getD, Bool.not_not, Option.isSome, Bool.and_self,
          if_true, bind_ok_iff, pure_ok_iff, asStr_ok_iff, asArr_ok_iff,
          hhost] at hsv <;>
      · obtain ⟨a, ha, hsv⟩ := hsv
        obtain rfl := Json.arr.inj ha
        simp only [bind_ok_iff, pure_ok_iff, asStr_ok_iff] at hsv
        obtain ⟨sch, hsch, b2, hb2, hh2, hhh2, hfin⟩ := hsv
        obtain rfl := Json.str.inj hsch
        obtain rfl := Json.str.inj hb2
        obtain rfl := Json.str.inj hhh2
        exact hfin.symm
  · intro h1 h2
    unfold parse_servers at hsv
    rw [getD, h1] at hsv
    rw [hasKey, h2] at hsv
    simp only [Option.getD, Json.truthy, List.isEmpty, Bool.not_false,
      Option.isSome, Bool.and_false, Bool.false_eq_true, if_false,
      asArr_ok_iff] at hsv
    exact (Json.arr.inj hsv).symm

end SwaggerMcp

namespace SwaggerMcp

/-- Claim C3: a response's content_type and schema follow the precedence
content-map-first-entry, then bare schema (with content_type fixed to
application/json), then both unset; description defaults to the empty
string. -/
theorem C3_response_normalization (sc : String) (rdata : List (String × Json))
    (r : Response) (hok : parse_response sc rdata = Except.ok r) :
    (∀ ct cfs rest,
        Json.lookup rdata "content" = some (Json.obj ((ct, Json.obj cfs) :: rest)) →
        r.content_type = some ct ∧ r.schema = Json.lookup cfs "schema") ∧
    (∀ s, Json.lookup rdata "content" = none →
        Json.lookup rdata "schema" = some s →
        r.content_type = some "application/json" ∧ r.schema = some s) ∧
    (Json.lookup rdata "content" = none → Json.lookup rdata "schema" = none →
        r.content_type = none ∧ r.schema = none) ∧
    (Json.lookup rdata "description" = none → r.description = "") := by
  refine ⟨?_, ?_, ?_, ?_⟩
  · intro ct cfs rest h
    have h1 := hok
    unfold parse_response at h1
    rw [h] at h1
    simp only [bind_ok_iff, pure_ok_iff, asObj_ok_iff, asStr_ok_iff] at h1
    obtain ⟨a, ha, h1⟩ := h1
    obtain rfl := Json.obj.inj ha
    simp only [bind_ok_iff, pure_ok_iff, asObj_ok_iff, asStr_ok_iff] at h1
    obtain ⟨cobj, hcobj, y, hy, d, hd, hr⟩ := h1
    obtain rfl := Json.obj.inj hcobj
    subst hy
    subst hr
    exact ⟨rfl, rfl⟩
  · intro s h h2
    have h1 := hok
    unfold parse_response at h1
    rw [h, h2] at h1
    simp only [bind_ok_iff, pure_ok_iff, asObj_ok_iff, asStr_ok_iff] at h1
    obtain ⟨y, hy, d, hd, hr⟩ := h1
    subst hy
    subst hr
    exact ⟨rfl, rfl⟩
  · intro h h2
    have h1 := hok
    unfold parse_response at h1
    rw [h, h2] at h1
    simp only [bind_ok_iff, pure_ok_iff, asObj_ok_iff, asStr_ok_iff] at h1
    obtain ⟨y, hy, d, hd, hr⟩ := h1
    subst hy
    subst hr
    exact ⟨rfl, rfl⟩
  · intro h
    have h1 := hok
    unfold parse_response at h1
    rcases hc : Json.lookup rdata "content" with _ | cj <;> rw [hc] at h1
    · rcases hs2 : Json.lookup rdata "schema" with _ | s <;> rw [hs2] at h1 <;>
        simp only [bind_ok_iff, pure_ok_iff, asObj_ok_iff, asStr_ok_iff, getD, h,
          Option.getD] at h1
      · obtain ⟨y, hy, d, hd, hr⟩ := h1
        subst hr
        exact (Json.str.inj hd).symm
      · obtain ⟨y, hy, d, hd, hr⟩ := h1
        subst hr
        exact (Json.str.inj hd).symm
    · simp only [bind_ok_iff, pure_ok_iff, asObj_ok_iff, asStr_ok_iff, getD, h,
        Option.getD] at h1
      obtain ⟨a, ha, h1⟩ := h1
      subst ha
      rcases a with _ | ⟨⟨ct, c⟩, tail⟩ <;>
        simp only [bind_ok_iff, pure_ok_iff, asObj_ok_iff, asStr_ok_iff] at h1
      · obtain ⟨y, hy, d, hd, hr⟩ := h1
        subst hr
        exact (Json.str.inj hd).symm
      · obtain ⟨cobj, hcobj, y, hy, d, hd, hr⟩ := h1
        subst hr
        exact (Json.str.inj hd).symm

theorem C1_servers_witness :
    parse_spec [("host", Json.str "api.example.com"),
                ("schemes", Json.arr [Json.str "https"]),
                ("basePath", Json.str "/v1")] =
      Except.ok { info := { title := "Unknown API", version := "1.0.0",
                            description := none, contact := none, license := none },
                  apis := [], schemas := [],
                  servers := [Json.obj [("url", Json.str "https://api.example.com/v1")]],
                  security_definitions := [] } ∧
    ({ info := { title := "Unknown API", version := "1.0.0", description := none,
                 contact := none, license := none },
       apis := [], schemas := [],
       servers := [Json.obj [("url", Json.str "https://api.example.com/v1")]],
       security_definitions := [] } : SwaggerDocument).servers =
      [Json.obj [("url", Json.str ("https" ++ "://" ++ "api.example.com" ++ "/v1"))]] :=
  ⟨rfl,
   (C1_servers_normalization
      [("host", Json.str "api.example.com"),
       ("schemes", Json.arr [Json.str "https"]),
       ("basePath", Json.str "/v1")]
      { info := { title := "Unknown API", version := "1.0.0", description := none,
                  contact := none, license := none },
        apis := [], schemas := [],
        servers := [Json.obj [("url", Json.str "https://api.example.com/v1")]],
        security_definitions := [] }
      rfl).2.1 "api.example.com" "https" "/v1" (Or.inl rfl) rfl
        (Or.inr ⟨[], rfl⟩) (Or.inr rfl)⟩

theorem C3_response_witness :
    parse_response "200"
        [("content", Json.obj [("application/json",
            Json.obj [("schema", Json.obj [("type", Json.str "object")])])])] =
      Except.ok { status_code := "200", description := "",
                  content_type := some "application/json",
                  schema := some (Json.obj [("type", Json.str "object")]) } ∧
    ({ status_code := "200", description := "",
       content_type := some "application/json",
       schema := some (Json.obj [("type", Json.str "object")]) } : Response).content_type
        = some "application/json" ∧
    ({ status_code := "200", description := "",
       content_type := some "application/json",
       schema := some (Json.obj [("type", Json.str "object")]) } : Response).schema
        = some (Json.obj [("type", Json.str "object")]) :=
  ⟨rfl,
   ((C3_response_normalization "200"
      [("content", Json.obj [("application/json",
          Json.obj [("schema", Json.obj [("type", Json.str "object")])])])]
      { status_code := "200", description := "",
        content_type := some "application/json",
        schema := some (Json.obj [("type", Json.str "object")]) }
      rfl).1 "application/json" [("schema", Json.obj [("type", Json.str "object")])]
      [] rfl).1,
   ((C3_response_normalization "200"
      [("content", Json.obj [("application/json",
          Json.obj [("schema", Json.obj [("type", Json.str "object")])])])]
      { status_code := "200", description := "",
        content_type := some "application/json",
        schema := some (Json.obj [("type", Json.str "object")]) }
      rfl).1 "application/json" [("schema", Json.obj [("type", Json.str "object")])]
      [] rfl).2⟩

theorem C8_schema_witness :
    parse_single_schema "Pet"
        [("type", Json.str "object"),
         ("properties", Json.obj [("id", Json.obj [("type", Json.str "integer")]),
                                  ("nickname", Json.obj [])]),
         ("required", Json.arr [Json.str "id"])] =
      Except.ok { name := "Pet", type := "object", description := none,
                  properties := [
                    { name := "id", type := "integer", description := none,
                      required := true, format := none, «example» := none,
                      enum := none, items := none, properties := none },
                    { name := "nickname", type := "string", description := none,
                      required := false, format := none, «example» := none,
                      enum := none, items := none, properties := none }],
                  required := ["id"], «example» := none } ∧
    (∀ prop ∈ ({ name := "Pet", type := "object", description := none,
                  properties := [
                    { name := "id", type := "integer", description := none,
                      required := true, format := none, «example» := none,
                      enum := none, items := none, properties := none },
                    { name := "nickname", type := "string", description := none,
                      required := false, format := none, «example» := none,
                      enum := none, items := none, properties := none }],
                  required := ["id"], «example» := none } : Schema).properties,
        (prop.required = true ↔ Json.str prop.name ∈ [Json.str "id"])) :=
  ⟨rfl,
   (C8_schema_property_required "Pet"
      [("type", Json.str "object"),
       ("properties", Json.obj [("id", Json.obj [("type", Json.str "integer")]),
                                ("nickname", Json.obj [])]),
       ("required", Json.arr [Json.str "id"])]
      { name := "Pet", type := "object", description := none,
        properties := [
          { name := "id", type := "integer", description := none,
            required := true, format := none, «example» := none,
            enum := none, items := none, properties := none },
          { name := "nickname", type := "string", description := none,
            required := false, format := none, «example» := none,
            enum := none, items := none, properties := none }],
        required := ["id"], «example» := none }
      rfl [Json.str "id"] rfl
      [("id", Json.obj [("type", Json.str "integer")]), ("nickname", Json.obj [])]
      rfl).2⟩

end SwaggerMcp

namespace SwaggerMcp

theorem parse_parameter_inv (param : List (String × Json)) (p : Parameter)
    (hok : parse_parameter param = Except.ok p) :
    (match Json.lookup param "schema" with
     | some schemaJ => ∃ sfs, schemaJ = Json.obj sfs ∧
         getD sfs "type" (Json.str "string") = Json.str p.type
     | none => getD param "type" (Json.str "string") = Json.str p.type) ∧
    getD param "in" (Json.str "query") = Json.str p.location ∧
    getD param "required" (Json.bool false) = Json.bool p.required := by
  unfold parse_parameter at hok
  rcases hs : Json.lookup param "schema" with _ | schemaJ <;> rw [hs] at hok <;>
    rcases hn : Json.lookup param "name" with _ | v <;> rw [hn] at hok <;>
      simp only [bind_ok_iff, pure_ok_iff, asStr_ok_iff, asObj_ok_iff,
        asBool_ok_iff] at hok
  case none.none =>
    exact absurd hok (by simp)
  case none.some =>
    obtain ⟨t, ht, w, hw, nm, hnm, loc, hloc, req, hreq, hp⟩ := hok
    subst hp
    exact ⟨ht, hloc, hreq⟩
  case some.none =>
    exact absurd hok (by simp)
  case some.some =>
    obtain ⟨sfs, hsfs, t, ht, w, hw, nm, hnm, loc, hloc, req, hreq, hp⟩ := hok
    subst hp
    exact ⟨⟨sfs, hsfs, ht⟩, hloc, hreq⟩

/-- Claim C2: a normalized parameter's type equals its own type field unless
a nested schema object is present, in which case the schema's type overrides
it; location equals the in field, defaulting to query when absent; required
defaults to false when absent. -/
theorem C2_parameter_normalization (param : List (String × Json)) (p : Parameter)
    (hok : parse_parameter param = Except.ok p) :
    (∀ sfs t, Json.lookup param "schema" = some (Json.obj sfs) →
        Json.lookup sfs "type" = some (Json.str t) → p.type = t) ∧
    (∀ t, Json.lookup param "schema" = none →
        Json.lookup param "type" = some (Json.str t) → p.type = t) ∧
    (∀ l, Json.lookup param "in" = some (Json.str l) → p.location = l) ∧
    (Json.lookup param "in" = none → p.location = "query") ∧
    (Json.lookup param "required" = none → p.required = false) := by
  obtain ⟨hty, hloc, hreq⟩ := parse_parameter_inv param p hok
  refine ⟨?_, ?_, ?_, ?_, ?_⟩
  · intro sfs t h1 h2
    rw [h1] at hty
    obtain ⟨sfs2, hsfs2, ht⟩ := hty
    obtain rfl : sfs = sfs2 := Json.obj.inj hsfs2
    rw [getD, h2, Option.getD] at ht
    exact (Json.str.inj ht).symm
  · intro t h1 h2
    rw [h1] at hty
    rw [getD, h2, Option.getD] at hty
    exact (Json.str.inj hty).symm
  · intro l h
    rw [getD, h, Option.getD] at hloc
    exact (Json.str.inj hloc).symm
  · intro h
    rw [getD, h] at hloc
    exact (Json.str.inj hloc).symm
  · intro h
    rw [getD, h] at hreq
    exact (Json.bool.inj hreq).symm

/-- Claim C10: a parameter with neither a top-level type field nor a nested
schema, and likewise one whose nested schema lacks a type field, gets the
default type string. -/
theorem C10_parameter_type_default (param : List (String × Json)) (p : Parameter)
    (hok : parse_parameter param = Except.ok p) :
    (Json.lookup param "type" = none → Json.lookup param "schema" = none →
        p.type = "string") ∧
    (∀ sfs, Json.lookup param "schema" = some (Json.obj sfs) →
        Json.lookup sfs "type" = none → p.type = "string") := by
  obtain ⟨hty, hloc, hreq⟩ := parse_parameter_inv param p hok
  constructor
  · intro h1 h2
    rw [h2] at hty
    rw [getD, h1] at hty
    exact (Json.str.inj hty).symm
  · intro sfs h1 h2
    rw [h1] at hty
    obtain ⟨sfs2, hsfs2, ht⟩ := hty
    obtain rfl : sfs = sfs2 := Json.obj.inj hsfs2
    rw [getD, h2] at ht
    exact (Json.str.inj ht).symm

theorem C2_parameter_witness :
    parse_parameter [("name", Json.str "id"), ("in", Json.str "path"),
        ("schema", Json.obj [("type", Json.str "integer")])] =
      Except.ok { name := "id", location := "path", type := "integer",
                  required := false, description := none, default := none,
                  «example» := none } ∧
    ({ name := "id", location := "path", type := "integer", required := false,
       description := none, default := none, «example» := none } : Parameter).type
      = "integer" :=
  ⟨rfl,
   (C2_parameter_normalization
      [("name", Json.str "id"), ("in", Json.str "path"),
       ("schema", Json.obj [("type", Json.str "integer")])]
      { name := "id", location := "path", type := "integer", required := false,
        description := none, default := none, «example» := none }
      rfl).1 [("type", Json.str "integer")] "integer" rfl rfl⟩

theorem C10_parameter_witness :
    parse_parameter [("name", Json.str "q")] =
      Except.ok { name := "q", location := "query", type := "string",
                  required := false, description := none, default := none,
                  «example» := none } ∧
    ({ name := "q", location := "query", type := "string", required := false,
       description := none, default := none, «example» := none } : Parameter).type
      = "string" :=
  ⟨rfl,
   (C10_parameter_type_default [("name", Json.str "q")]
      { name := "q", location := "query", type := "string", required := false,
        description := none, default := none, «example» := none }
      rfl).1 rfl rfl⟩

end SwaggerMcp

namespace SwaggerMcp

theorem strContains_any (s : String) : strContains s "" = true := by
  unfold strContains
  rw [List.any_eq_true]
  refine ⟨0, List.mem_range.mpr (Nat.succ_le_succ (Nat.zero_le _)), ?_⟩
  simp [List.isPrefixOf]

theorem strContains_of_ne (p : String) (hp : p ≠ "") : strContains "" p = false := by
  unfold strContains
  rw [List.any_eq_false]
  intro i _
  cases hp2 : p.data with
  | nil =>
    exact absurd (by cases p; simp only at hp2; simp [hp2]) hp
  | cons c cs => simp [hp2, List.isPrefixOf]

theorem api_matches_eq_claim (q : String) (api : ApiEndpoint) :
    api_matches (strLower q) api = claim_matches q api := by
  by_cases hq : strLower q = ""
  · unfold api_matches claim_matches
    rw [hq]
    simp [strContains_any]
  · have harm : ∀ s : String,
        ((s ≠ "" : Bool) && strContains (strLower s) (strLower q)) =
          strContains (strLower s) (strLower q) := by
      intro s
      by_cases hs : s = ""
      · subst hs
        rw [show strLower "" = "" from rfl, strContains_of_ne _ hq]
        simp
      · simp [hs]
    unfold api_matches claim_matches
    cases api.summary <;> cases api.description <;>
      simp only [harm]

/-- Claim C5: search returns exactly the endpoints, in document order, for
which the query is a case-insensitive substring of the path, the method, the
summary, the description or any tag, and the empty sequence with no
document. -/
theorem C5_search_apis (query : String) (current : Option SwaggerDocument) :
    search_apis current query =
      (match current with
       | none => []
       | some doc => doc.apis.filter (claim_matches query)) := by
  cases current with
  | none => rfl
  | some doc =>
    show doc.apis.filter (api_matches (strLower query)) =
      doc.apis.filter (claim_matches query)
    congr 1
    funext api
    exact api_matches_eq_claim query api

theorem contains_eq_decide_mem (l : List String) (t : String) :
    l.contains t = decide (t ∈ l) := by
  induction l with
  | nil => rfl
  | cons h tl ih => simp [List.contains_cons, ih, List.mem_cons]

/-- Claim C6: the tag lookup returns exactly the endpoints whose tags contain
the tag under exact, case-sensitive equality, and the empty sequence when no
document is loaded (hence also when nothing matches). -/
theorem C6_get_apis_by_tag (tag : String) (current : Option SwaggerDocument) :
    get_apis_by_tag current tag =
      (match current with
       | none => []
       | some doc => doc.apis.filter (fun api => decide (tag ∈ api.tags))) := by
  cases current with
  | none => rfl
  | some doc =>
    show doc.apis.filter (fun api => api.tags.contains tag) =
      doc.apis.filter (fun api => decide (tag ∈ api.tags))
    congr 1
    funext api
    exact contains_eq_decide_mem api.tags tag

end SwaggerMcp

namespace SwaggerMcp

/-- Claim C7: a load attempt whose retrieval, decode or normalization fails
leaves the held document unchanged and yields a structured failure reply. -/
theorem C7_failed_load_preserves_state (current : Option SwaggerDocument)
    (fetched : Except String Json)
    (hfail : (load_swagger current fetched).2.success = false) :
    (load_swagger current fetched).1 = current ∧
    (load_swagger current fetched).2.error.isSome = true := by
  cases fetched with
  | error e => exact ⟨rfl, rfl⟩
  | ok j =>
    cases hobj : j.asObj with
    | error e =>
      simp only [load_swagger, load_from_url, hobj]
      exact ⟨trivial, rfl⟩
    | ok spec =>
      cases hps : parse_spec spec with
      | ok doc =>
        exfalso
        simp only [load_swagger, load_from_url, hobj, hps] at hfail
        exact absurd hfail (by simp)
      | error e =>
        simp only [load_swagger, load_from_url, hobj, hps]
        exact ⟨trivial, rfl⟩

theorem C7_failed_load_witness :
    (load_swagger
        (some { info := { title := "Old API", version := "1.0.0",
                          description := none, contact := none, license := none },
                apis := [], schemas := [], servers := [],
                security_definitions := [] })
        (Except.error "connection timed out")).2.success = false ∧
    (load_swagger
        (some { info := { title := "Old API", version := "1.0.0",
                          description := none, contact := none, license := none },
                apis := [], schemas := [], servers := [],
                security_definitions := [] })
        (Except.error "connection timed out")).1 =
      some { info := { title := "Old API", version := "1.0.0",
                       description := none, contact := none, license := none },
             apis := [], schemas := [], servers := [],
             security_definitions := [] } :=
  ⟨rfl,
   (C7_failed_load_preserves_state
      (some { info := { title := "Old API", version := "1.0.0",
                        description := none, contact := none, license := none },
              apis := [], schemas := [], servers := [],
              security_definitions := [] })
      (Except.error "connection timed out") rfl).1⟩

end SwaggerMcp

namespace SwaggerMcp

theorem asObj_obj (fs : List (String × Json)) : (Json.obj fs).asObj = .ok fs := rfl

theorem asArr_arr (xs : List Json) : (Json.arr xs).asArr = .ok xs := rfl

theorem parse_operation_inv (path method : String)
    (item op : List (String × Json)) (e : ApiEndpoint)
    (hok : parse_operation path method item op = Except.ok e) :
    e.path = path ∧ e.method = strUpper method ∧
    claimOpParams item (Json.obj op) = Except.ok e.parameters := by
  unfold parse_operation at hok
  simp only [bind_ok_iff, pure_ok_iff, asArr_ok_iff, asObj_ok_iff,
    asBool_ok_iff] at hok
  obtain ⟨opP, hopP, itemP, hitemP, params, hparams, respObj, hrespObj, resps,
    hresps, oid, hoid, summ, hsumm, desc, hdesc, tagsJ, htagsJ, tags, htags,
    secJ, hsecJ, dep, hdep, he⟩ := hok
  subst he
  refine ⟨rfl, rfl, ?_⟩
  unfold claimOpParams
  rw [asObj_obj, ok_bind, hopP]
  rw [asArr_arr, ok_bind, hitemP]
  rw [asArr_arr, ok_bind]
  exact hparams

theorem parse_path_ops_inv (path : String) (item : List (String × Json)) :
    ∀ (entries : List (String × Json)) (es : List ApiEndpoint),
      parse_path_ops path item entries = Except.ok es →
      es.map (fun a => (a.path, a.method)) =
        (entries.filter (fun kv => httpMethods.contains (strLower kv.1))).map
          (fun kv => (path, strUpper kv.1)) ∧
      claimParamsOps item entries = Except.ok (es.map (fun a => a.parameters)) := by
  intro entries
  induction entries with
  | nil =>
    intro es h
    unfold parse_path_ops at h
    obtain rfl := Except.ok.inj h
    exact ⟨rfl, rfl⟩
  | cons kv rest ih =>
    intro es h
    obtain ⟨m, opJ⟩ := kv
    unfold parse_path_ops at h
    by_cases hm : httpMethods.contains (strLower m)
    · rw [if_pos hm] at h
      simp only [bind_ok_iff, pure_ok_iff, asObj_ok_iff] at h
      obtain ⟨op, hop, e, he, others, hothers, hcons⟩ := h
      subst hop
      subst hcons
      obtain ⟨hp, hm2, hparams⟩ := parse_operation_inv path m item op e he
      obtain ⟨ih1, ih2⟩ := ih others hothers
      constructor
      · have hmem : strLower m ∈ httpMethods := by simpa using hm
        simp [List.filter_cons, hmem, hp, hm2, ih1]
      · unfold claimParamsOps
        rw [if_pos hm, hparams, ok_bind, ih2, ok_bind, List.map_cons]
        rfl
    · rw [if_neg hm] at h
      obtain ⟨ih1, ih2⟩ := ih es h
      constructor
      · have hmem : ¬ strLower m ∈ httpMethods := by simpa using hm
        simp [List.filter_cons, hmem, ih1]
      · unfold claimParamsOps
        rw [if_neg hm]
        exact ih2

/-- Claim C4: normalization yields one endpoint per (path, method) pair whose
key case-insensitively matches one of the seven HTTP methods, stored
uppercase, skipping every other path-item key; and each endpoint's
parameters are the normalization of the operation-level list with the
path-item-level list appended after it. -/
theorem C4_paths_endpoints (paths : List (String × List (String × Json)))
    (apis : List ApiEndpoint)
    (hok : parse_paths (paths.map (fun pitem => (pitem.1, Json.obj pitem.2))) =
      Except.ok apis) :
    apis.map (fun a => (a.path, a.method)) = claimPathMethodPairs paths ∧
    claimParamsPaths paths = Except.ok (apis.map (fun a => a.parameters)) := by
  induction paths generalizing apis with
  | nil =>
    unfold parse_paths at hok
    obtain rfl := Except.ok.inj hok
    exact ⟨rfl, rfl⟩
  | cons pitem rest ih =>
    obtain ⟨path, item⟩ := pitem
    simp only [List.map_cons] at hok
    unfold parse_paths at hok
    simp only [bind_ok_iff, pure_ok_iff, asObj_ok_iff] at hok
    obtain ⟨itm, hitm, es, hes, others, hothers, happ⟩ := hok
    obtain rfl := Json.obj.inj hitm
    subst happ
    obtain ⟨h1, h2⟩ := parse_path_ops_inv path item item es hes
    obtain ⟨ih1, ih2⟩ := ih others hothers
    constructor
    · unfold claimPathMethodPairs
      rw [List.map_append, h1, ih1]
    · unfold claimParamsPaths
      rw [h2, ok_bind, ih2, ok_bind, List.map_append]
      rfl

end SwaggerMcp

namespace SwaggerMcp

theorem C4_paths_witness :
    parse_paths
        (([("/pets/{id}",
            [("x-note", Json.str "v"),
             ("get", Json.obj [("parameters",
                Json.arr [Json.obj [("name", Json.str "verbose")]])]),
             ("parameters", Json.arr [Json.obj [("name", Json.str "id"),
                ("in", Json.str "path")]])])] :
          List (String × List (String × Json))).map
          (fun pitem => (pitem.1, Json.obj pitem.2))) =
      Except.ok [{ path := "/pets/{id}", method := "GET", operation_id := none,
                   summary := none, description := none, tags := [],
                   parameters := [
                     { name := "verbose", location := "query", type := "string",
                       required := false, description := none, default := none,
                       «example» := none },
                     { name := "id", location := "path", type := "string",
                       required := false, description := none, default := none,
                       «example» := none }],
                   responses := [], security := [], deprecated := false }] ∧
    [({ path := "/pets/{id}", method := "GET", operation_id := none,
        summary := none, description := none, tags := [],
        parameters := [
          { name := "verbose", location := "query", type := "string",
            required := false, description := none, default := none,
            «example» := none },
          { name := "id", location := "path", type := "string",
            required := false, description := none, default := none,
            «example» := none }],
        responses := [], security := [], deprecated := false } :
       ApiEndpoint)].map (fun a => (a.path, a.method)) =
      claimPathMethodPairs
        [("/pets/{id}",
          [("x-note", Json.str "v"),
           ("get", Json.obj [("parameters",
              Json.arr [Json.obj [("name", Json.str "verbose")]])]),
           ("parameters", Json.arr [Json.obj [("name", Json.str "id"),
              ("in", Json.str "path")]])])] :=
  ⟨rfl,
   (C4_paths_endpoints
      [("/pets/{id}",
        [("x-note", Json.str "v"),
         ("get", Json.obj [("parameters",
            Json.arr [Json.obj [("name", Json.str "verbose")]])]),
         ("parameters", Json.arr [Json.obj [("name", Json.str "id"),
            ("in", Json.str "path")]])])]
      [{ path := "/pets/{id}", method := "GET", operation_id := none,
         summary := none, description := none, tags := [],
         parameters := [
           { name := "verbose", location := "query", type := "string",
             required := false, description := none, default := none,
             «example» := none },
           { name := "id", location := "path", type := "string",
             required := false, description := none, default := none,
             «example» := none }],
         responses := [], security := [], deprecated := false }]
      rfl).1⟩

end SwaggerMcp
